import Mathlib

/-!
Verification of the pyagents repository's mock diagnostic tools and agent
wiring, as a shallow embedding in Lean 4.

Modelling conventions, shared by all definitions below:

* Randomness is made explicit.  Every Python random draw becomes a parameter:
  `random.random()` (a draw from `[0,1)`) is modelled by `pyRandom` applied to
  an arbitrary rational seed, `random.uniform(a, b)` by `pyUniform`, and
  `random.randint(a, b)` (inclusive bounds) by `pyRandint` applied to a natural
  seed.  Each model function is surjective onto exactly the values the Python
  call can produce, so quantifying over all seeds quantifies over all outcomes
  of the draws.  Functions that draw repeatedly take seed streams
  `rng : Nat → Rat` (for `random`/`uniform`) and `ri : Nat → Nat` (for
  `randint`) and read successive draws at distinct indices.
* `random.sample(population, k)` returns a `k`-element duplicate-free list of
  elements of the population; it is modelled by a parameter `samp : Nat → List String`
  about which theorems assume exactly that contract.
* Python floats are embedded as exact rationals; `round(x, 2)` is modelled by
  `pyRound2`, rounding to a multiple of 1/100 with ties to even, as Python does.
* Fallible code returns `Option`: a Python exception (`ZeroDivisionError`,
  `ValueError` from an empty `randint` range) is `none`.
-/

/-- Model of `random.random()`: the fractional part of an arbitrary rational
seed, which ranges over exactly `[0, 1)`. -/
def pyRandom (r : ℚ) : ℚ := Int.fract r

/-- Model of `random.uniform(a, b)`, which Python computes as
`a + (b - a) * random()`. -/
def pyUniform (a b r : ℚ) : ℚ := a + (b - a) * pyRandom r

/-- Model of `random.randint(a, b)` (both bounds inclusive) for `a ≤ b`: the
seed reduced into the range.  (Python raises for `a > b`; callers below check
the range where it is not obvious.) -/
def pyRandint (a b : ℕ) (s : ℕ) : ℕ := a + s % (b + 1 - a)

/-- Round-half-to-even on rationals, the tie rule of Python's `round`. -/
def roundHalfEven (x : ℚ) : ℤ :=
  if Int.fract x < 1/2 then ⌊x⌋
  else if 1/2 < Int.fract x then ⌊x⌋ + 1
  else if ⌊x⌋ % 2 = 0 then ⌊x⌋ else ⌊x⌋ + 1

/-- Model of Python's `round(x, 2)`: round to the nearest multiple of 1/100,
ties to even. -/
def pyRound2 (x : ℚ) : ℚ := (roundHalfEven (100 * x) : ℚ) / 100

/-- Python's `max` over a list (the empty case is unreachable at call sites). -/
def pyListMax : List ℚ → ℚ
  | [] => 0
  | x :: xs => xs.foldl max x

/-- Python's `min` over a list (the empty case is unreachable at call sites). -/
def pyListMin : List ℚ → ℚ
  | [] => 0
  | x :: xs => xs.foldl min x

/-- Mapping a fallible function over a list, stopping at the first failure:
the effect of a Python loop that may raise at some element. -/
def mapOpt (f : α → Option β) : List α → Option (List β)
  | [] => some []
  | x :: xs => (f x).bind fun y => (mapOpt f xs).map fun ys => y :: ys

/-! ## Data model of `sre_agent_tools.py` (pydantic models) -/

/-- The `NsgRule` pydantic model.  `is_blocking` defaults to `False` in the
source; record literals below spell every field out. -/
structure NsgRule where
  name : String
  priority : ℕ
  direction : String
  access : String
  protocol : String
  source_address_prefix : String
  source_port_range : String
  destination_address_prefix : String
  destination_port_range : String
  is_blocking : Bool := false
deriving DecidableEq

/-- The `CheckNsgRulesOutput` pydantic model. -/
structure CheckNsgRulesOutput where
  rules : List NsgRule
  blocking_rules : List NsgRule
  has_issues : Bool
deriving DecidableEq

/-! ## `check_nsg_rules` (src/sre_agent_tools.py, lines 82-193) -/

/-- The `common_ports` list of `check_nsg_rules`. -/
def common_ports : List String := ["80", "443", "8080", "3000-3010"]

/-- The first of the three `normal_rules` of `check_nsg_rules`. -/
def allowHTTPSRule : NsgRule :=
  { name := "AllowHTTPS"
    priority := 100
    direction := "Inbound"
    access := "Allow"
    protocol := "TCP"
    source_address_prefix := "*"
    source_port_range := "*"
    destination_address_prefix := "*"
    destination_port_range := "443"
    is_blocking := false }

/-- The second of the three `normal_rules` of `check_nsg_rules`. -/
def allowHTTPRule : NsgRule :=
  { name := "AllowHTTP"
    priority := 110
    direction := "Inbound"
    access := "Allow"
    protocol := "TCP"
    source_address_prefix := "*"
    source_port_range := "*"
    destination_address_prefix := "*"
    destination_port_range := "80"
    is_blocking := false }

/-- The third of the three `normal_rules` of `check_nsg_rules`. -/
def allowSSHRule : NsgRule :=
  { name := "AllowSSH"
    priority := 120
    direction := "Inbound"
    access := "Allow"
    protocol := "TCP"
    source_address_prefix := "10.0.0.0/24"
    source_port_range := "*"
    destination_address_prefix := "*"
    destination_port_range := "22"
    is_blocking := false }

/-- The `DenyCustomPort` blocking rule added with 50% probability, for the
drawn `blocked_port`. -/
def denyCustomPortRule (blocked_port : String) : NsgRule :=
  { name := "DenyCustomPort"
    priority := 90
    direction := "Inbound"
    access := "Deny"
    protocol := "TCP"
    source_address_prefix := "*"
    source_port_range := "*"
    destination_address_prefix := "*"
    destination_port_range := blocked_port
    is_blocking := true }

/-- The `DenySubnet` blocking rule added with 30% probability. -/
def denySubnetRule : NsgRule :=
  { name := "DenySubnet"
    priority := 150
    direction := "Inbound"
    access := "Deny"
    protocol := "*"
    source_address_prefix := "192.168.0.0/24"
    source_port_range := "*"
    destination_address_prefix := "*"
    destination_port_range := "*"
    is_blocking := true }

/-- The `DenyAll` default rule appended at the end. -/
def denyAllRule : NsgRule :=
  { name := "DenyAll"
    priority := 4096
    direction := "Inbound"
    access := "Deny"
    protocol := "*"
    source_address_prefix := "*"
    source_port_range := "*"
    destination_address_prefix := "*"
    destination_port_range := "*"
    is_blocking := false }

/-- `check_nsg_rules(resource_group, nsg_name)`.  Draw 1 (`rng 0`) decides the
`DenyCustomPort` rule (`random.random() > 0.5`), `ri 0` picks the blocked
port (`random.choice(common_ports)`), draw 2 (`rng 1`) decides the
`DenySubnet` rule (`random.random() > 0.7`).  Both input arguments are unused
by the Python body, exactly as here. -/
def check_nsg_rules (resource_group : String) (nsg_name : Option String)
    (rng : ℕ → ℚ) (ri : ℕ → ℕ) : CheckNsgRulesOutput :=
  let normal_rules := [allowHTTPSRule, allowHTTPRule, allowSSHRule]
  let add_custom : Bool := decide (pyRandom (rng 0) > 1/2)
  let blocked_port := common_ports.getD (ri 0 % common_ports.length) ""
  let add_subnet : Bool := decide (pyRandom (rng 1) > 7/10)
  let all_rules_1 := if add_custom then normal_rules ++ [denyCustomPortRule blocked_port] else normal_rules
  let blocking_1 := if add_custom then [denyCustomPortRule blocked_port] else []
  let all_rules_2 := if add_subnet then all_rules_1 ++ [denySubnetRule] else all_rules_1
  let blocking_2 := if add_subnet then blocking_1 ++ [denySubnetRule] else blocking_1
  { rules := all_rules_2 ++ [denyAllRule]
    blocking_rules := blocking_2
    has_issues := decide (0 < blocking_2.length) }

/-- Claim C1: for every call to `check_nsg_rules` (any arguments, any outcome
of the random draws), the length of `blocking_rules` equals the number of
rules in `rules` whose `is_blocking` field is true, and `has_issues` is true
iff that count is nonzero. -/
theorem check_nsg_rules_blocking_count (resource_group : String)
    (nsg_name : Option String) (rng : ℕ → ℚ) (ri : ℕ → ℕ) :
    (check_nsg_rules resource_group nsg_name rng ri).blocking_rules.length
      = (check_nsg_rules resource_group nsg_name rng ri).rules.countP (fun r => r.is_blocking)
    ∧ ((check_nsg_rules resource_group nsg_name rng ri).has_issues = true
      ↔ 0 < (check_nsg_rules resource_group nsg_name rng ri).rules.countP (fun r => r.is_blocking)) := by
  unfold check_nsg_rules
  cases hc : decide (pyRandom (rng 0) > 1/2) <;>
    cases hs : decide (pyRandom (rng 1) > 7/10) <;>
      simp [List.countP_cons, List.countP_append, List.countP_nil, allowHTTPSRule,
        allowHTTPRule, allowSSHRule, denyCustomPortRule, denySubnetRule, denyAllRule]

/-- Claim C10: for every call to `check_nsg_rules`, `rules` begins with the
three fixed Allow rules, ends with the `DenyAll` rule of priority 4096,
contains between 4 and 6 rules, every blocking rule also appears in `rules`,
and every blocking rule has access `"Deny"` and `is_blocking` true. -/
theorem check_nsg_rules_shape (resource_group : String)
    (nsg_name : Option String) (rng : ℕ → ℚ) (ri : ℕ → ℕ) :
    (check_nsg_rules resource_group nsg_name rng ri).rules.take 3
        = [allowHTTPSRule, allowHTTPRule, allowSSHRule]
    ∧ (check_nsg_rules resource_group nsg_name rng ri).rules.getLast?
        = some denyAllRule
    ∧ denyAllRule.priority = 4096
    ∧ 4 ≤ (check_nsg_rules resource_group nsg_name rng ri).rules.length
    ∧ (check_nsg_rules resource_group nsg_name rng ri).rules.length ≤ 6
    ∧ (∀ r ∈ (check_nsg_rules resource_group nsg_name rng ri).blocking_rules,
        r ∈ (check_nsg_rules resource_group nsg_name rng ri).rules)
    ∧ (∀ r ∈ (check_nsg_rules resource_group nsg_name rng ri).blocking_rules,
        r.access = "Deny" ∧ r.is_blocking = true) := by
  unfold check_nsg_rules
  cases hc : decide (pyRandom (rng 0) > 1/2) <;>
    cases hs : decide (pyRandom (rng 1) > 7/10) <;>
      refine ⟨rfl, ?_, rfl, ?_, ?_, ?_, ?_⟩ <;>
        simp_all [denyCustomPortRule, denySubnetRule, denyAllRule]

/-! ## `check_dns` (src/sre_agent_tools.py, lines 195-240) -/

/-- The `DnsResolutionResult` pydantic model. -/
structure DnsResolutionResult where
  resolved_ip : Option String
  status : String
  latency_ms : ℕ
  success : Bool
deriving DecidableEq

/-- The `CheckDnsOutput` pydantic model. -/
structure CheckDnsOutput where
  hostname : String
  resolution_results : List DnsResolutionResult
  has_issues : Bool
deriving DecidableEq

/-- A placeholder `DnsResolutionResult`, used only as the `getD` default in
statements about list elements that are proved to exist. -/
def defaultDnsResult : DnsResolutionResult :=
  { resolved_ip := none, status := "", latency_ms := 0, success := false }

/-- Splitting a character list at a separator, with Python's `str.split`
semantics for a one-character separator: `"".split(",") == [""]` and
separators at the ends produce empty pieces. -/
def splitOnChar (sep : Char) : List Char → List (List Char)
  | [] => [[]]
  | c :: rest =>
    if c = sep then [] :: splitOnChar sep rest
    else
      match splitOnChar sep rest with
      | [] => [[c]]
      | piece :: pieces => (c :: piece) :: pieces

/-- Python's `s.split(",")`, used by `check_dns` on the `dns_server`
argument. -/
def pySplitComma (s : String) : List String :=
  (splitOnChar ',' s.data).map (fun cs => String.mk cs)

/-- The `dns_servers` list of `check_dns`: Python's
`dns_server.split(",") if dns_server else ["Primary DNS", "Secondary DNS"]`,
where both `None` and the empty string are falsy. -/
def dnsServers (dns_server : Option String) : List String :=
  match dns_server with
  | none => ["Primary DNS", "Secondary DNS"]
  | some s => if s = "" then ["Primary DNS", "Secondary DNS"] else pySplitComma s

/-- One iteration of the result loop of `check_dns`, for the server at index
`i`.  The failure branch is taken when there are DNS issues and the server
string equals the first server (`server == dns_servers[0]` compares values).
Seeds: the status coin uses `rng (1 + i)`; the `randint` draws of iteration
`i` use `ri (5 * i)` through `ri (5 * i + 4)`. -/
def dnsResultFor (has_dns_issues : Bool) (first server : String)
    (rng : ℕ → ℚ) (ri : ℕ → ℕ) (i : ℕ) : DnsResolutionResult :=
  if has_dns_issues = true ∧ server = first then
    { resolved_ip := none
      status := if pyRandom (rng (1 + i)) < 1/2 then "Failed to resolve" else "Timeout"
      latency_ms := pyRandint 500 2000 (ri (5 * i))
      success := false }
  else
    { resolved_ip := some (String.intercalate "."
        [toString (pyRandint 1 255 (ri (5 * i))), toString (pyRandint 1 255 (ri (5 * i + 1))),
          toString (pyRandint 1 255 (ri (5 * i + 2))), toString (pyRandint 1 255 (ri (5 * i + 3)))])
      status := "Resolved successfully"
      latency_ms := pyRandint 5 100 (ri (5 * i + 4))
      success := true }

/-- The result loop of `check_dns`: one `DnsResolutionResult` per server, in
order, starting at index `i`. -/
def dnsResults (has_dns_issues : Bool) (first : String)
    (rng : ℕ → ℚ) (ri : ℕ → ℕ) (i : ℕ) : List String → List DnsResolutionResult
  | [] => []
  | server :: rest =>
    dnsResultFor has_dns_issues first server rng ri i
      :: dnsResults has_dns_issues first rng ri (i + 1) rest

/-- `check_dns(hostname, dns_server)`.  Draw `rng 0` decides
`has_dns_issues` (`random.random() < 0.3`). -/
def check_dns (hostname : String) (dns_server : Option String)
    (rng : ℕ → ℚ) (ri : ℕ → ℕ) : CheckDnsOutput :=
  let servers := dnsServers dns_server
  let has_dns_issues : Bool := decide (pyRandom (rng 0) < 3/10)
  { hostname := hostname
    resolution_results := dnsResults has_dns_issues (servers.getD 0 "") rng ri 0 servers
    has_issues := has_dns_issues }

lemma splitOnChar_ne_nil (sep : Char) (l : List Char) : splitOnChar sep l ≠ [] := by
  induction l with
  | nil => simp [splitOnChar]
  | cons c rest ih =>
    unfold splitOnChar
    split
    · simp
    · cases h : splitOnChar sep rest <;> simp

lemma dnsServers_ne_nil (dns_server : Option String) : dnsServers dns_server ≠ [] := by
  cases dns_server with
  | none => simp [dnsServers]
  | some s =>
    by_cases h : s = ""
    · simp [dnsServers, h]
    · have hs := splitOnChar_ne_nil ',' s.data
      simp only [dnsServers, h, if_false, pySplitComma]
      intro hmap
      exact hs (List.map_eq_nil_iff.mp hmap)

lemma dnsResults_length (has_dns_issues : Bool) (first : String)
    (rng : ℕ → ℚ) (ri : ℕ → ℕ) (i : ℕ) (servers : List String) :
    (dnsResults has_dns_issues first rng ri i servers).length = servers.length := by
  induction servers generalizing i with
  | nil => rfl
  | cons s rest ih => simp [dnsResults, ih]

lemma dnsResults_getD (has_dns_issues : Bool) (first : String)
    (rng : ℕ → ℚ) (ri : ℕ → ℕ) :
    ∀ (servers : List String) (i j : ℕ), j < servers.length →
      (dnsResults has_dns_issues first rng ri i servers).getD j defaultDnsResult
        = dnsResultFor has_dns_issues first (servers.getD j "") rng ri (i + j) := by
  intro servers
  induction servers with
  | nil => intro i j h; simp at h
  | cons s rest ih =>
    intro i j h
    cases j with
    | zero => simp [dnsResults]
    | succ j =>
      have hj : j < rest.length := by simpa using h
      have := ih (i + 1) j hj
      simpa [dnsResults, Nat.add_assoc, Nat.add_comm 1 j] using this

lemma dnsResults_success_eq_isSome (has_dns_issues : Bool) (first : String)
    (rng : ℕ → ℚ) (ri : ℕ → ℕ) :
    ∀ (servers : List String) (i : ℕ) (r : DnsResolutionResult),
      r ∈ dnsResults has_dns_issues first rng ri i servers →
        r.success = r.resolved_ip.isSome := by
  intro servers
  induction servers with
  | nil => intro i r h; simp [dnsResults] at h
  | cons s rest ih =>
    intro i r h
    simp only [dnsResults, List.mem_cons] at h
    rcases h with h | h
    · subst h
      unfold dnsResultFor
      split <;> rfl
    · exact ih (i + 1) r h

/-- Claim C8 is refuted by this input: with `dns_server = "a,a"` and a draw
making `has_dns_issues` true, the second resolution result also fails, because
the failure test compares the server *string* with `dns_servers[0]` and both
entries are `"a"`.  The claim asserts every result after the first has
`success` true; here the result list's `success` fields are
`[false, false]`. -/
theorem check_dns_second_result_can_fail :
    ((check_dns "h" (some "a,a") (fun _ => (0 : ℚ)) (fun _ => 0)).resolution_results.map
        (fun r => r.success)) = [false, false] := by
  have h0 : (decide (pyRandom ((fun _ => (0 : ℚ)) 0) < 3/10)) = true := by
    norm_num [pyRandom, Int.fract_zero]
  have hs : dnsServers (some "a,a") = ["a", "a"] := rfl
  simp only [check_dns, hs, h0]
  simp [dnsResults, dnsResultFor]

/-- Claim C8, amended: for every call to `check_dns`, each returned resolution
result has `success` true iff its `resolved_ip` is non-null; every result
after the first *whose server string differs from the first server's* has
`success` true (a later duplicate of the first server fails together with it);
the result list is nonempty and `has_issues` is true iff the first resolution
result has `success` false. -/
theorem check_dns_results (hostname : String) (dns_server : Option String)
    (rng : ℕ → ℚ) (ri : ℕ → ℕ) :
    (∀ r ∈ (check_dns hostname dns_server rng ri).resolution_results,
        r.success = r.resolved_ip.isSome)
    ∧ (check_dns hostname dns_server rng ri).resolution_results ≠ []
    ∧ (∀ j, j < (check_dns hostname dns_server rng ri).resolution_results.length →
        (dnsServers dns_server).getD j "" ≠ (dnsServers dns_server).getD 0 "" →
        ((check_dns hostname dns_server rng ri).resolution_results.getD j
            defaultDnsResult).success = true)
    ∧ ((check_dns hostname dns_server rng ri).has_issues = true ↔
        ((check_dns hostname dns_server rng ri).resolution_results.getD 0
            defaultDnsResult).success = false) := by
  have hne := dnsServers_ne_nil dns_server
  have hlen : (check_dns hostname dns_server rng ri).resolution_results.length
      = (dnsServers dns_server).length := by
    simp [check_dns, dnsResults_length]
  have hpos : 0 < (dnsServers dns_server).length :=
    List.length_pos.mpr hne
  refine ⟨?_, ?_, ?_, ?_⟩
  · intro r hr
    exact dnsResults_success_eq_isSome _ _ _ _ _ _ r hr
  · intro h
    rw [← List.length_eq_zero, hlen] at h
    omega
  · intro j hj hdiff
    rw [hlen] at hj
    show ((dnsResults _ _ rng ri 0 (dnsServers dns_server)).getD j defaultDnsResult).success = true
    rw [dnsResults_getD _ _ rng ri (dnsServers dns_server) 0 j hj]
    unfold dnsResultFor
    rw [if_neg (fun hc => hdiff hc.2)]
  · show (decide (pyRandom (rng 0) < 3/10) = true) ↔ _
    have h0 := dnsResults_getD (decide (pyRandom (rng 0) < 3/10))
      ((dnsServers dns_server).getD 0 "") rng ri (dnsServers dns_server) 0 0 hpos
    show _ ↔ ((dnsResults _ _ rng ri 0 (dnsServers dns_server)).getD 0 defaultDnsResult).success = false
    rw [h0]
    unfold dnsResultFor
    by_cases hd : decide (pyRandom (rng 0) < 3/10) = true
    · rw [if_pos ⟨hd, rfl⟩]
      simp [hd]
    · rw [if_neg (fun hc => hd hc.1)]
      simp [hd]

/-! ## Startup credential check (src/sre_agent.py lines 26-29; the same four
lines appear in src/agents_test.py 15-18 and src/tools_streaming.py 16-19) -/

/-- Python truthiness of `os.getenv`'s result: `None` and the empty string
are falsy, every other string is truthy. -/
def pyTruthy : Option String → Bool
  | none => false
  | some s => !(s == "")

/-- The startup check common to all three scripts:
`api_key = os.getenv("OPENAI_API_KEY"); if not api_key: raise ValueError(...)`.
The argument is the environment lookup's result; the error value is the
`ValueError` message. -/
def startupCheck (api_key : Option String) : Except String Unit :=
  if pyTruthy api_key = true then Except.ok ()
  else Except.error "API key not found. Please set OPENAI_API_KEY in your .env file."

/-- Claim C5 is refuted by this input: when the `OPENAI_API_KEY` environment
variable is *present but empty*, `os.getenv` returns the empty string, which
is falsy in Python, so the script aborts even though the variable is not
absent.  The claim says startup proceeds whenever the credential is
present. -/
theorem startupCheck_empty_string_aborts :
    startupCheck (some "")
      = Except.error "API key not found. Please set OPENAI_API_KEY in your .env file." := rfl

/-- Claim C5, amended: each script's startup check aborts with the descriptive
`ValueError` iff the `OPENAI_API_KEY` environment variable is absent or set to
the empty string; when it is present and non-empty, startup proceeds past the
check. -/
theorem startupCheck_ok_iff (api_key : Option String) :
    startupCheck api_key = Except.ok () ↔ (api_key ≠ none ∧ api_key ≠ some "") := by
  cases api_key with
  | none => simp [startupCheck, pyTruthy]
  | some s =>
    by_cases h : s = "" <;> simp [startupCheck, pyTruthy, h]

/-! ## Agent wiring of `sre_agent.py` (lines 34-95)

The three `Agent(...)` objects reference each other through their `handoffs`
lists; an agent is identified here by an `AgentId`, and an `Agent` value
carries the configuration fields relevant to the wiring.  Instruction strings
(built from the external framework's `RECOMMENDED_PROMPT_PREFIX`) are not
modelled. -/

/-- Identity of the three agents declared by `sre_agent.py`. -/
inductive AgentId where
  | coordinator
  | networking
  | availability
deriving DecidableEq

/-- The five tools of `sre_agent_tools.py`, as referenced by the agents'
`tools` lists. -/
inductive ToolId where
  | check_nsg_rules
  | check_dns
  | get_cpu_usage
  | get_memory_usage
  | get_logs
deriving DecidableEq

/-- An `Agent(...)` configuration: name, permitted hand-off targets, tools. -/
structure AgentCfg where
  name : String
  handoffs : List AgentId
  tools : List ToolId
deriving DecidableEq

/-- The module-level state of `sre_agent.py`: its three agent objects. -/
structure SreModuleState where
  coordinator_agent : AgentCfg
  networking_diagnostic_agent : AgentCfg
  availability_diagnostic_agent : AgentCfg
deriving DecidableEq

/-- Phase one of the module initialization: the three `Agent(...)` calls, each
constructed with `handoffs=[]` (the coordinator explicitly so, "to resolve
circular reference"). -/
def sreAgentsConstructed : SreModuleState :=
  { coordinator_agent :=
      { name := "Container Apps Coordinating Agent", handoffs := [], tools := [] }
    networking_diagnostic_agent :=
      { name := "Networking Diagnostic Agent", handoffs := []
        tools := [ToolId.check_nsg_rules, ToolId.check_dns] }
    availability_diagnostic_agent :=
      { name := "Availability Diagnostic Agent", handoffs := []
        tools := [ToolId.get_cpu_usage, ToolId.get_memory_usage, ToolId.get_logs] } }

/-- Phase two (lines 93-95): the three `handoffs` assignments, applied in
program order to the constructed state. -/
def sreAgentsWired : SreModuleState :=
  let s0 := sreAgentsConstructed
  let s1 := { s0 with networking_diagnostic_agent :=
    { s0.networking_diagnostic_agent with handoffs := [AgentId.coordinator] } }
  let s2 := { s1 with availability_diagnostic_agent :=
    { s1.availability_diagnostic_agent with handoffs := [AgentId.coordinator] } }
  { s2 with coordinator_agent :=
    { s2.coordinator_agent with handoffs := [AgentId.networking, AgentId.availability] } }

/-- Claim C7: after the SRE script's two-phase module initialization, the
coordinator's hand-off list is exactly the networking agent followed by the
availability agent, each diagnostic agent's hand-off list is exactly the
coordinator, and hence coordinator and each diagnostic agent reference each
other mutually. -/
theorem sre_agents_mutual_handoffs :
    sreAgentsWired.coordinator_agent.handoffs = [AgentId.networking, AgentId.availability]
    ∧ sreAgentsWired.networking_diagnostic_agent.handoffs = [AgentId.coordinator]
    ∧ sreAgentsWired.availability_diagnostic_agent.handoffs = [AgentId.coordinator]
    ∧ (AgentId.networking ∈ sreAgentsWired.coordinator_agent.handoffs
        ∧ AgentId.coordinator ∈ sreAgentsWired.networking_diagnostic_agent.handoffs)
    ∧ (AgentId.availability ∈ sreAgentsWired.coordinator_agent.handoffs
        ∧ AgentId.coordinator ∈ sreAgentsWired.availability_diagnostic_agent.handoffs) := by
  refine ⟨rfl, rfl, rfl, ⟨?_, ?_⟩, ⟨?_, ?_⟩⟩ <;> simp [sreAgentsWired, sreAgentsConstructed]

/-! ## The interactive loop of `sre_agent.py` (lines 97-110)

One iteration of `main`'s `while True` loop is modelled by the ordered list
of externally visible actions it performs and by its state transition.  The
framework's `Runner.run` is external: its result is a `RunResponse`
parameter carrying `last_agent` and the value of `to_input_list()`. -/

/-- A chat message, as appended by `messages.append({"role": "user", ...})`. -/
structure ChatMessage where
  role : String
  content : String
deriving DecidableEq

/-- What the loop uses of the framework's run result. -/
structure RunResponse where
  last_agent : AgentId
  to_input_list : List ChatMessage
deriving DecidableEq

/-- The loop's state across iterations: the current agent and message list. -/
structure LoopState where
  agent : AgentId
  messages : List ChatMessage
deriving DecidableEq

/-- An externally visible action of one loop iteration. -/
inductive TurnEvent where
  | requestInput : TurnEvent
  | frameworkRun : AgentId → List ChatMessage → TurnEvent
  | printOutput : String → TurnEvent
deriving DecidableEq

/-- Whether an event is a print. -/
def isPrintEvent : TurnEvent → Bool
  | TurnEvent.printOutput _ => true
  | _ => false

/-- Whether an event is a framework run call. -/
def isRunEvent : TurnEvent → Bool
  | TurnEvent.frameworkRun _ _ => true
  | _ => false

/-- The actions of one iteration of `main`'s loop, in program order:
`input("User: ")`, then one awaited `Runner.run(agent, messages)` on the
message list extended with the user message.  The body contains no print
call. -/
def sreTurnEvents (st : LoopState) (user : String) : List TurnEvent :=
  [TurnEvent.requestInput,
    TurnEvent.frameworkRun st.agent (st.messages ++ [{ role := "user", content := user }])]

/-- The state transition of one iteration: `agent = response.last_agent;
messages = response.to_input_list()`. -/
def sreTurnState (st : LoopState) (user : String) (response : RunResponse) : LoopState :=
  { agent := response.last_agent, messages := response.to_input_list }

/-- Claim C6 is refuted on the code: one iteration of the interactive loop of
`sre_agent.py` performs no print action at all (its visible output during a
turn comes from the framework's verbose stdout logging, enabled at import
time, not from the script), so the script does not print the results after
awaiting the run and before requesting the next input as the claim states. -/
theorem sre_turn_has_no_print :
    (sreTurnEvents { agent := AgentId.coordinator, messages := [] } "hello").any isPrintEvent
      = false := rfl

/-- Claim C6, amended: in every iteration of the interactive script's
top-level loop, the script requests input first, then forwards the user input
(appended to the running message history) to the framework's run entry point
in exactly one awaited call, and performs no print of its own before the next
input request; the response's `last_agent` and `to_input_list()` become the
next iteration's state.  (Output seen during a turn is produced by the
framework's verbose logging while the run is awaited.) -/
theorem sre_turn_shape (st : LoopState) (user : String) (response : RunResponse) :
    (sreTurnEvents st user).head? = some TurnEvent.requestInput
    ∧ (sreTurnEvents st user).countP isRunEvent = 1
    ∧ TurnEvent.frameworkRun st.agent (st.messages ++ [{ role := "user", content := user }])
        ∈ sreTurnEvents st user
    ∧ (sreTurnEvents st user).any isPrintEvent = false
    ∧ sreTurnState st user response
        = { agent := response.last_agent, messages := response.to_input_list } := by
  refine ⟨rfl, ?_, ?_, rfl, rfl⟩ <;> simp [sreTurnEvents, isRunEvent]

/-! ## Resource usage (src/sre_agent_tools.py, lines 243-335)

`_generate_resource_usage` is embedded as `generate_resource_usage`.
Timestamps (`datetime.now() - timedelta(minutes=minutes-i)`, ISO-formatted in
Python) are modelled as integer minute offsets from a `now` parameter; no
claim concerns their text form.  The high-usage coin is draw `rng 0`; the
per-minute `random.uniform(-0.1, 0.1)` of iteration `i` is drawn at
`rng (1 + i)`. -/

/-- The `TimeSeriesPoint` pydantic model, with the timestamp as an integer
minute offset. -/
structure TimeSeriesPoint where
  timestamp : ℤ
  value : ℚ
deriving DecidableEq

/-- The `ResourceUsageOutput` pydantic model. -/
structure ResourceUsageOutput where
  app_name : String
  metric_name : String
  unit : String
  time_series : List TimeSeriesPoint
  average : ℚ
  max : ℚ
  min : ℚ
  has_issues : Bool
deriving DecidableEq

/-- The `high_usage = random.random() < high_chance` draw. -/
def genHigh (high_chance : ℚ) (rng : ℕ → ℚ) : Bool :=
  decide (pyRandom (rng 0) < high_chance)

/-- The `base_value` selected from the metric name (`"CPU"` or else memory). -/
def genBase (metric_name : String) : ℚ :=
  if metric_name = "CPU" then 30 else 500

/-- The `peak_value` selected from the metric name and the high-usage flag. -/
def genPeak (metric_name : String) (high_usage : Bool) : ℚ :=
  if metric_name = "CPU" then (if high_usage then 95 else 60)
  else (if high_usage then 1800 else 1000)

/-- The spike-branch value of loop iteration `i`:
`severity = 1 - abs(i - minutes//2) / (minutes//6)` and
`value = base + (peak - base) * max(0, severity)`.  Callers guard
`minutes // 6 = 0` (a `ZeroDivisionError` in Python). -/
def spikeValue (base peak : ℚ) (m i : ℕ) : ℚ :=
  let distance_from_center : ℕ := ((i : ℤ) - ((m / 2 : ℕ) : ℤ)).natAbs
  let severity : ℚ := 1 - (distance_from_center : ℚ) / ((m / 6 : ℕ) : ℚ)
  base + (peak - base) * max 0 severity

/-- The value generated at loop iteration `i` of `_generate_resource_usage`:
the spike branch when `high_usage and minutes//3 < i < 2*minutes//3` (failing
with `ZeroDivisionError` when `minutes // 6 == 0`), otherwise the normal
variation `base * (1 + uniform(-0.1, 0.1))`. -/
def valueAt (base peak : ℚ) (high_usage : Bool) (m : ℕ) (rng : ℕ → ℚ) (i : ℕ) : Option ℚ :=
  if high_usage = true ∧ m / 3 < i ∧ i < 2 * m / 3 then
    if m / 6 = 0 then none
    else some (spikeValue base peak m i)
  else some (base * (1 + pyUniform (-1/10) (1/10) (rng i)))

/-- `_generate_resource_usage(app_name, metric_name, unit, minutes, high_chance)`.
`none` models the Python exceptions: `ZeroDivisionError` from the
spike branch when `minutes // 6 == 0`, and from `sum(values)/len(values)`
when the loop produced no values (`minutes <= 0`). -/
def generate_resource_usage (app_name metric_name unit : String) (minutes : ℤ)
    (high_chance : ℚ) (now : ℤ) (rng : ℕ → ℚ) : Option ResourceUsageOutput :=
  (mapOpt
      (valueAt (genBase metric_name) (genPeak metric_name (genHigh high_chance rng))
        (genHigh high_chance rng) minutes.toNat (fun i => rng (1 + i)))
      (List.range minutes.toNat)).bind fun values =>
    if values = [] then none
    else
      some { app_name := app_name
             metric_name := metric_name
             unit := unit
             time_series := ((List.range minutes.toNat).zip values).map fun p =>
               { timestamp := now - (minutes - (p.1 : ℤ)), value := pyRound2 p.2 }
             average := pyRound2 (values.sum / (values.length : ℚ))
             max := pyRound2 (pyListMax values)
             min := pyRound2 (pyListMin values)
             has_issues :=
               if metric_name = "CPU" ∧ pyListMax values > 90 then true
               else if metric_name = "Memory" ∧ pyListMax values > 1500 then true
               else false }

/-- `get_cpu_usage(container_app_name, resource_group, minutes)`:
`_generate_resource_usage(container_app_name, "CPU", "percentage", minutes, high_chance=0.4)`.
`resource_group` is unused by the Python body, exactly as here. -/
def get_cpu_usage (container_app_name resource_group : String) (minutes : ℤ)
    (now : ℤ) (rng : ℕ → ℚ) : Option ResourceUsageOutput :=
  generate_resource_usage container_app_name "CPU" "percentage" minutes (2/5) now rng

/-- `get_memory_usage(container_app_name, resource_group, minutes)`:
`_generate_resource_usage(container_app_name, "Memory", "MB", minutes, high_chance=0.3)`. -/
def get_memory_usage (container_app_name resource_group : String) (minutes : ℤ)
    (now : ℤ) (rng : ℕ → ℚ) : Option ResourceUsageOutput :=
  generate_resource_usage container_app_name "Memory" "MB" minutes (3/10) now rng

/-! ### List extrema lemmas for `pyListMax`/`pyListMin` -/

lemma le_foldl_max (l : List ℚ) : ∀ a : ℚ, a ≤ l.foldl max a := by
  induction l with
  | nil => intro a; exact le_refl a
  | cons x xs ih =>
    intro a
    simpa only [List.foldl_cons] using le_trans (le_max_left a x) (ih (max a x))

lemma foldl_max_choice (l : List ℚ) : ∀ a : ℚ, l.foldl max a = a ∨ l.foldl max a ∈ l := by
  induction l with
  | nil => intro a; left; rfl
  | cons x xs ih =>
    intro a
    simp only [List.foldl_cons]
    rcases ih (max a x) with h | h
    · rcases max_choice a x with hm | hm
      · left; rw [h, hm]
      · right; rw [h, hm]; exact List.mem_cons_self x xs
    · right; exact List.mem_cons_of_mem x h

lemma mem_le_foldl_max (l : List ℚ) : ∀ (a y : ℚ), y ∈ l → y ≤ l.foldl max a := by
  induction l with
  | nil => intro a y h; cases h
  | cons x xs ih =>
    intro a y h
    simp only [List.foldl_cons]
    rcases List.mem_cons.mp h with rfl | h
    · exact le_trans (le_max_right a y) (le_foldl_max xs (max a y))
    · exact ih (max a x) y h

lemma foldl_min_le (l : List ℚ) : ∀ a : ℚ, l.foldl min a ≤ a := by
  induction l with
  | nil => intro a; exact le_refl a
  | cons x xs ih =>
    intro a
    simpa only [List.foldl_cons] using le_trans (ih (min a x)) (min_le_left a x)

lemma foldl_min_choice (l : List ℚ) : ∀ a : ℚ, l.foldl min a = a ∨ l.foldl min a ∈ l := by
  induction l with
  | nil => intro a; left; rfl
  | cons x xs ih =>
    intro a
    simp only [List.foldl_cons]
    rcases ih (min a x) with h | h
    · rcases min_choice a x with hm | hm
      · left; rw [h, hm]
      · right; rw [h, hm]; exact List.mem_cons_self x xs
    · right; exact List.mem_cons_of_mem x h

lemma foldl_min_le_mem (l : List ℚ) : ∀ (a y : ℚ), y ∈ l → l.foldl min a ≤ y := by
  induction l with
  | nil => intro a y h; cases h
  | cons x xs ih =>
    intro a y h
    simp only [List.foldl_cons]
    rcases List.mem_cons.mp h with rfl | h
    · exact le_trans (foldl_min_le xs (min a y)) (min_le_right a y)
    · exact ih (min a x) y h

lemma pyListMax_mem {l : List ℚ} (h : l ≠ []) : pyListMax l ∈ l := by
  cases l with
  | nil => exact absurd rfl h
  | cons x xs =>
    rcases foldl_max_choice xs x with h1 | h1
    · rw [pyListMax, h1]; exact List.mem_cons_self x xs
    · rw [pyListMax]; exact List.mem_cons_of_mem x h1

lemma le_pyListMax {l : List ℚ} {y : ℚ} (h : y ∈ l) : y ≤ pyListMax l := by
  cases l with
  | nil => cases h
  | cons x xs =>
    rcases List.mem_cons.mp h with rfl | h1
    · exact le_foldl_max xs y
    · exact mem_le_foldl_max xs x y h1

lemma pyListMin_mem {l : List ℚ} (h : l ≠ []) : pyListMin l ∈ l := by
  cases l with
  | nil => exact absurd rfl h
  | cons x xs =>
    rcases foldl_min_choice xs x with h1 | h1
    · rw [pyListMin, h1]; exact List.mem_cons_self x xs
    · rw [pyListMin]; exact List.mem_cons_of_mem x h1

lemma pyListMin_le {l : List ℚ} {y : ℚ} (h : y ∈ l) : pyListMin l ≤ y := by
  cases l with
  | nil => cases h
  | cons x xs =>
    rcases List.mem_cons.mp h with rfl | h1
    · exact foldl_min_le xs y
    · exact foldl_min_le_mem xs x y h1

lemma pyListMax_le {l : List ℚ} {b : ℚ} (h : l ≠ []) (hb : ∀ x ∈ l, x ≤ b) :
    pyListMax l ≤ b := hb _ (pyListMax_mem h)

/-- The mean of a nonempty list lies between its minimum and its maximum. -/
lemma avg_between {l : List ℚ} (h : l ≠ []) :
    pyListMin l ≤ l.sum / (l.length : ℚ) ∧ l.sum / (l.length : ℚ) ≤ pyListMax l := by
  have hpos : (0 : ℚ) < (l.length : ℚ) := by
    exact_mod_cast List.length_pos.mpr h
  constructor
  · rw [le_div_iff₀ hpos]
    calc pyListMin l * (l.length : ℚ) = l.length • pyListMin l := by
          rw [nsmul_eq_mul, mul_comm]
      _ ≤ l.sum := List.card_nsmul_le_sum l _ (fun x hx => pyListMin_le hx)
  · rw [div_le_iff₀ hpos]
    calc l.sum ≤ l.length • pyListMax l :=
          List.sum_le_card_nsmul l _ (fun x hx => le_pyListMax hx)
      _ = pyListMax l * (l.length : ℚ) := by rw [nsmul_eq_mul, mul_comm]

/-! ### Rounding lemmas -/

lemma floor_le_roundHalfEven (x : ℚ) : ⌊x⌋ ≤ roundHalfEven x := by
  unfold roundHalfEven; split_ifs <;> omega

lemma roundHalfEven_le_floor_add_one (x : ℚ) : roundHalfEven x ≤ ⌊x⌋ + 1 := by
  unfold roundHalfEven; split_ifs <;> omega

lemma roundHalfEven_mono {x y : ℚ} (h : x ≤ y) : roundHalfEven x ≤ roundHalfEven y := by
  rcases lt_or_le ⌊x⌋ ⌊y⌋ with hf | hf
  · calc roundHalfEven x ≤ ⌊x⌋ + 1 := roundHalfEven_le_floor_add_one x
      _ ≤ ⌊y⌋ := by omega
      _ ≤ roundHalfEven y := floor_le_roundHalfEven y
  · have hfe : ⌊x⌋ = ⌊y⌋ := le_antisymm (Int.floor_le_floor h) hf
    have hfr : Int.fract x ≤ Int.fract y := by
      rw [Int.fract, Int.fract, hfe]; linarith
    unfold roundHalfEven
    rw [hfe]
    split_ifs <;> first | omega | (exfalso; linarith)

lemma pyRound2_mono {x y : ℚ} (h : x ≤ y) : pyRound2 x ≤ pyRound2 y := by
  unfold pyRound2
  have h1 : roundHalfEven (100 * x) ≤ roundHalfEven (100 * y) :=
    roundHalfEven_mono (by linarith)
  have h2 : ((roundHalfEven (100 * x) : ℤ) : ℚ) ≤ ((roundHalfEven (100 * y) : ℤ) : ℚ) := by
    exact_mod_cast h1
  exact (div_le_div_iff_of_pos_right (by norm_num : (0 : ℚ) < 100)).mpr h2

lemma pyRound2_intCast (n : ℤ) : pyRound2 ((n : ℤ) : ℚ) = (n : ℚ) := by
  have h1 : (100 : ℚ) * (n : ℚ) = ((100 * n : ℤ) : ℚ) := by push_cast; ring
  unfold pyRound2 roundHalfEven
  rw [h1, Int.fract_intCast, Int.floor_intCast]
  rw [if_pos (by norm_num : (0 : ℚ) < 1/2)]
  push_cast
  ring

/-! ### Inversion lemmas for `mapOpt` -/

lemma mapOpt_length {f : α → Option β} : ∀ {l : List α} {vs : List β},
    mapOpt f l = some vs → vs.length = l.length := by
  intro l
  induction l with
  | nil => intro vs h; cases h; rfl
  | cons x xs ih =>
    intro vs h
    simp only [mapOpt, Option.bind_eq_some, Option.map_eq_some'] at h
    obtain ⟨y, hy, ys, hys, hvs⟩ := h
    subst hvs
    simp [ih hys]

lemma mapOpt_mem {f : α → Option β} : ∀ {l : List α} {vs : List β},
    mapOpt f l = some vs → ∀ {w : β}, w ∈ vs → ∃ x ∈ l, f x = some w := by
  intro l
  induction l with
  | nil => intro vs h w hw; cases h; cases hw
  | cons x xs ih =>
    intro vs h w hw
    simp only [mapOpt, Option.bind_eq_some, Option.map_eq_some'] at h
    obtain ⟨y, hy, ys, hys, hvs⟩ := h
    subst hvs
    rcases List.mem_cons.mp hw with rfl | hw2
    · exact ⟨x, List.mem_cons_self x xs, hy⟩
    · obtain ⟨x2, hx2, hfx2⟩ := ih hys hw2
      exact ⟨x2, List.mem_cons_of_mem x hx2, hfx2⟩

lemma mapOpt_forward {f : α → Option β} : ∀ {l : List α} {vs : List β},
    mapOpt f l = some vs → ∀ {x : α}, x ∈ l → ∃ v ∈ vs, f x = some v := by
  intro l
  induction l with
  | nil => intro vs h x hx; cases hx
  | cons z zs ih =>
    intro vs h x hx
    simp only [mapOpt, Option.bind_eq_some, Option.map_eq_some'] at h
    obtain ⟨y, hy, ys, hys, hvs⟩ := h
    subst hvs
    rcases List.mem_cons.mp hx with rfl | hx2
    · exact ⟨y, List.mem_cons_self y ys, hy⟩
    · obtain ⟨v, hv, hfv⟩ := ih hys hx2
      exact ⟨v, List.mem_cons_of_mem y hv, hfv⟩

lemma mapOpt_total {f : α → Option β} : ∀ {l : List α},
    (∀ x ∈ l, ∃ v, f x = some v) → ∃ vs, mapOpt f l = some vs := by
  intro l
  induction l with
  | nil => intro _; exact ⟨[], rfl⟩
  | cons x xs ih =>
    intro h
    obtain ⟨v, hv⟩ := h x (List.mem_cons_self x xs)
    obtain ⟨vs, hvs⟩ := ih (fun z hz => h z (List.mem_cons_of_mem x hz))
    exact ⟨v :: vs, by simp [mapOpt, hv, hvs]⟩

/-! ### Inversion and value bounds for `generate_resource_usage` -/

lemma generate_resource_usage_inv {app_name metric_name unit : String}
    {minutes : ℤ} {high_chance : ℚ} {now : ℤ} {rng : ℕ → ℚ} {out : ResourceUsageOutput}
    (h : generate_resource_usage app_name metric_name unit minutes high_chance now rng
      = some out) :
    ∃ values : List ℚ,
      mapOpt
          (valueAt (genBase metric_name) (genPeak metric_name (genHigh high_chance rng))
            (genHigh high_chance rng) minutes.toNat (fun i => rng (1 + i)))
          (List.range minutes.toNat) = some values
      ∧ values ≠ []
      ∧ out.average = pyRound2 (values.sum / (values.length : ℚ))
      ∧ out.max = pyRound2 (pyListMax values)
      ∧ out.min = pyRound2 (pyListMin values)
      ∧ out.has_issues =
          (if metric_name = "CPU" ∧ pyListMax values > 90 then true
            else if metric_name = "Memory" ∧ pyListMax values > 1500 then true
            else false)
      ∧ out.time_series.length = minutes.toNat := by
  unfold generate_resource_usage at h
  rcases Option.bind_eq_some.mp h with ⟨values, hv, hf⟩
  by_cases hne : values = []
  · rw [if_pos hne] at hf; cases hf
  · rw [if_neg hne] at hf
    injection hf with hf
    subst hf
    have hlen := mapOpt_length hv
    refine ⟨values, hv, hne, rfl, rfl, rfl, rfl, ?_⟩
    simp [List.length_zip, hlen, List.length_range]

lemma spikeValue_le {base peak : ℚ} (hbp : base ≤ peak) (m i : ℕ) :
    spikeValue base peak m i ≤ peak := by
  unfold spikeValue
  have hsev : (1 : ℚ) - (((((i : ℤ) - ((m / 2 : ℕ) : ℤ)).natAbs : ℕ) : ℚ) / ((m / 6 : ℕ) : ℚ)) ≤ 1 := by
    have : (0 : ℚ) ≤ ((((i : ℤ) - ((m / 2 : ℕ) : ℤ)).natAbs : ℕ) : ℚ) / ((m / 6 : ℕ) : ℚ) :=
      div_nonneg (by positivity) (by positivity)
    linarith
  have hmax : max (0 : ℚ) _ ≤ 1 := max_le (by norm_num) hsev
  have := mul_le_of_le_one_right (sub_nonneg.mpr hbp) hmax
  linarith

lemma spikeValue_center {base peak : ℚ} (m : ℕ) :
    spikeValue base peak m (m / 2) = peak := by
  unfold spikeValue
  simp [max_eq_right (zero_le_one' ℚ)]

lemma pyUniform_tenth_le (r : ℚ) : pyUniform (-1/10) (1/10) r ≤ 1/10 := by
  unfold pyUniform pyRandom
  have h1 : Int.fract r < 1 := Int.fract_lt_one r
  have h0 : 0 ≤ Int.fract r := Int.fract_nonneg r
  nlinarith

lemma normal_value_le {base : ℚ} (hb : 0 ≤ base) (r : ℚ) :
    base * (1 + pyUniform (-1/10) (1/10) r) ≤ base * (11/10) := by
  have := pyUniform_tenth_le r
  nlinarith

/-- Any value the loop can produce is at most the peak, provided the normal
band also sits below the peak. -/
lemma valueAt_some_le {base peak : ℚ} {high_usage : Bool} {m : ℕ} {rng : ℕ → ℚ} {i : ℕ} {v : ℚ}
    (hb : 0 ≤ base) (hbp : base ≤ peak) (h11 : base * (11/10) ≤ peak)
    (h : valueAt base peak high_usage m rng i = some v) : v ≤ peak := by
  unfold valueAt at h
  split at h
  · split at h
    · cases h
    · injection h with h
      rw [← h]
      exact spikeValue_le hbp m i
  · injection h with h
    rw [← h]
    exact le_trans (normal_value_le hb (rng i)) h11

/-- When the run is not a high-usage run with at least six minutes, every
generated value stays in the normal band. -/
lemma valueAt_some_le_normal {base peak : ℚ} {high_usage : Bool} {m : ℕ} {rng : ℕ → ℚ}
    {i : ℕ} {v : ℚ} (hb : 0 ≤ base) (hcase : high_usage = false ∨ m < 6)
    (h : valueAt base peak high_usage m rng i = some v) : v ≤ base * (11/10) := by
  unfold valueAt at h
  split at h
  · rename_i hcond
    rcases hcase with hh | hm
    · rw [hh] at hcond
      exact absurd hcond.1 (by simp)
    · have h6 : m / 6 = 0 := by omega
      rw [if_pos h6] at h
      cases h
  · injection h with h
    rw [← h]
    exact normal_value_le hb (rng i)

lemma valueAt_center {base peak : ℚ} {high_usage : Bool} {m : ℕ} {rng : ℕ → ℚ}
    (hm : 6 ≤ m) (hh : high_usage = true) :
    valueAt base peak high_usage m rng (m / 2) = some peak := by
  unfold valueAt
  rw [if_pos ⟨hh, by omega, by omega⟩, if_neg (by omega : ¬ m / 6 = 0), spikeValue_center]

/-- The maximum of the generated values: either a high-usage run of at least
six minutes, where it is exactly the peak, or it stays in the normal band. -/
lemma gen_max_cases {base peak : ℚ} {high_usage : Bool} {m : ℕ} {rng : ℕ → ℚ}
    {values : List ℚ}
    (hb : 0 ≤ base) (hbp : base ≤ peak) (h11 : base * (11/10) ≤ peak)
    (h : mapOpt (valueAt base peak high_usage m rng) (List.range m) = some values)
    (hne : values ≠ []) :
    (high_usage = true ∧ 6 ≤ m ∧ pyListMax values = peak)
      ∨ pyListMax values ≤ base * (11/10) := by
  by_cases hc : high_usage = true ∧ 6 ≤ m
  · left
    obtain ⟨hh, hm⟩ := hc
    refine ⟨hh, hm, ?_⟩
    have hmem : m / 2 ∈ List.range m := List.mem_range.mpr (by omega)
    obtain ⟨v, hv_mem, hv_eq⟩ := mapOpt_forward h hmem
    rw [valueAt_center hm hh] at hv_eq
    injection hv_eq with hv_eq
    apply le_antisymm
    · apply pyListMax_le hne
      intro w hw
      obtain ⟨i, _, hfi⟩ := mapOpt_mem h hw
      exact valueAt_some_le hb hbp h11 hfi
    · rw [hv_eq]
      exact le_pyListMax hv_mem
  · right
    apply pyListMax_le hne
    intro w hw
    obtain ⟨i, _, hfi⟩ := mapOpt_mem h hw
    apply valueAt_some_le_normal hb ?_ hfi
    cases hu : high_usage with
    | false => exact Or.inl rfl
    | true => exact Or.inr (Nat.lt_of_not_le fun hle => hc ⟨hu, hle⟩)

lemma pyRound2_33 : pyRound2 (33 : ℚ) = 33 := by simpa using pyRound2_intCast 33

lemma pyRound2_95 : pyRound2 (95 : ℚ) = 95 := by simpa using pyRound2_intCast 95

lemma pyRound2_550 : pyRound2 (550 : ℚ) = 550 := by simpa using pyRound2_intCast 550

lemma pyRound2_1800 : pyRound2 (1800 : ℚ) = 1800 := by simpa using pyRound2_intCast 1800

/-- Core of claim C3, for either metric. -/
lemma gen_min_le_average_le_max {app_name metric_name unit : String} {minutes : ℤ}
    {high_chance : ℚ} {now : ℤ} {rng : ℕ → ℚ} {out : ResourceUsageOutput}
    (h : generate_resource_usage app_name metric_name unit minutes high_chance now rng
      = some out) :
    out.min ≤ out.average ∧ out.average ≤ out.max := by
  obtain ⟨values, -, hne, havg, hmax, hmin, -, -⟩ := generate_resource_usage_inv h
  obtain ⟨h1, h2⟩ := avg_between hne
  rw [havg, hmax, hmin]
  exact ⟨pyRound2_mono h1, pyRound2_mono h2⟩

/-- Core of claim C4 for the CPU metric. -/
lemma gen_cpu_has_issues {app_name unit : String} {minutes : ℤ} {high_chance : ℚ}
    {now : ℤ} {rng : ℕ → ℚ} {out : ResourceUsageOutput}
    (h : generate_resource_usage app_name "CPU" unit minutes high_chance now rng
      = some out) :
    (out.has_issues = true ↔ out.max > 90) := by
  obtain ⟨values, hv, hne, -, hmax, -, hissue, -⟩ := generate_resource_usage_inv h
  have hb30 : genBase "CPU" = 30 := if_pos rfl
  rw [hb30] at hv
  have hband : pyListMax values ≤ 33 → (out.has_issues = true ↔ out.max > 90) := by
    intro hle33
    have hr : out.max ≤ 33 := by
      rw [hmax]
      calc pyRound2 (pyListMax values) ≤ pyRound2 (33 : ℚ) := pyRound2_mono hle33
        _ = 33 := pyRound2_33
    have hn1 : ¬("CPU" = "CPU" ∧ pyListMax values > 90) := fun hcond => by
      have := hcond.2; linarith
    have hn2 : ¬("CPU" = "Memory" ∧ pyListMax values > 1500) := fun hcond =>
      absurd hcond.1 (by decide)
    rw [hissue, if_neg hn1, if_neg hn2]
    have hnot : ¬(out.max > 90) := not_lt.mpr (by linarith)
    simp [hnot]
  cases hhi : genHigh high_chance rng with
  | false =>
    have hp : genPeak "CPU" false = 60 := by simp [genPeak]
    rw [hhi, hp] at hv
    rcases gen_max_cases (by norm_num) (by norm_num)
        (by norm_num : (30 : ℚ) * (11/10) ≤ 60) hv hne with ⟨hfalse, -, -⟩ | hle
    · exact absurd hfalse (by simp)
    · exact hband (by linarith)
  | true =>
    have hp : genPeak "CPU" true = 95 := by simp [genPeak]
    rw [hhi, hp] at hv
    rcases gen_max_cases (by norm_num) (by norm_num)
        (by norm_num : (30 : ℚ) * (11/10) ≤ 95) hv hne with ⟨-, -, hmax95⟩ | hle
    · rw [hissue, hmax, hmax95, if_pos ⟨rfl, by norm_num⟩, pyRound2_95]
      norm_num
    · exact hband (by linarith)

/-- Core of claim C4 for the Memory metric. -/
lemma gen_memory_has_issues {app_name unit : String} {minutes : ℤ} {high_chance : ℚ}
    {now : ℤ} {rng : ℕ → ℚ} {out : ResourceUsageOutput}
    (h : generate_resource_usage app_name "Memory" unit minutes high_chance now rng
      = some out) :
    (out.has_issues = true ↔ out.max > 1500) := by
  obtain ⟨values, hv, hne, -, hmax, -, hissue, -⟩ := generate_resource_usage_inv h
  have hb : genBase "Memory" = 500 := if_neg (by decide)
  rw [hb] at hv
  have hband : pyListMax values ≤ 550 → (out.has_issues = true ↔ out.max > 1500) := by
    intro hle
    have hr : out.max ≤ 550 := by
      rw [hmax]
      calc pyRound2 (pyListMax values) ≤ pyRound2 (550 : ℚ) := pyRound2_mono hle
        _ = 550 := pyRound2_550
    have hn1 : ¬("Memory" = "CPU" ∧ pyListMax values > 90) := fun hcond =>
      absurd hcond.1 (by decide)
    have hn2 : ¬("Memory" = "Memory" ∧ pyListMax values > 1500) := fun hcond => by
      have := hcond.2; linarith
    rw [hissue, if_neg hn1, if_neg hn2]
    have hnot : ¬(out.max > 1500) := not_lt.mpr (by linarith)
    simp [hnot]
  cases hhi : genHigh high_chance rng with
  | false =>
    have hp : genPeak "Memory" false = 1000 := by simp [genPeak]
    rw [hhi, hp] at hv
    rcases gen_max_cases (by norm_num) (by norm_num)
        (by norm_num : (500 : ℚ) * (11/10) ≤ 1000) hv hne with ⟨hfalse, -, -⟩ | hle
    · exact absurd hfalse (by simp)
    · exact hband (by linarith)
  | true =>
    have hp : genPeak "Memory" true = 1800 := by simp [genPeak]
    rw [hhi, hp] at hv
    rcases gen_max_cases (by norm_num) (by norm_num)
        (by norm_num : (500 : ℚ) * (11/10) ≤ 1800) hv hne with ⟨-, -, hmax18⟩ | hle
    · rw [hissue, hmax, hmax18]
      rw [if_neg (fun hcond => absurd hcond.1 (by decide) : ¬("Memory" = "CPU" ∧ (1800 : ℚ) > 90))]
      rw [if_pos (⟨rfl, by norm_num⟩ : ("Memory" = "Memory" ∧ (1800 : ℚ) > 1500)), pyRound2_1800]
      norm_num
    · exact hband (by linarith)

/-- Core of claim C9, for either metric: for at least six minutes, the
generation is total and produces one time-series point per minute. -/
lemma gen_total {app_name metric_name unit : String} {minutes : ℤ} {high_chance : ℚ}
    {now : ℤ} {rng : ℕ → ℚ} (h : 6 ≤ minutes) :
    ∃ out, generate_resource_usage app_name metric_name unit minutes high_chance now rng
        = some out
      ∧ (out.time_series.length : ℤ) = minutes := by
  have hm : 6 ≤ minutes.toNat := by omega
  have htot : ∀ i ∈ List.range minutes.toNat, ∃ v,
      valueAt (genBase metric_name) (genPeak metric_name (genHigh high_chance rng))
        (genHigh high_chance rng) minutes.toNat (fun i => rng (1 + i)) i = some v := by
    intro i _
    unfold valueAt
    split
    · rw [if_neg (by omega : ¬ minutes.toNat / 6 = 0)]
      exact ⟨_, rfl⟩
    · exact ⟨_, rfl⟩
  obtain ⟨values, hv⟩ := mapOpt_total htot
  have hlen : values.length = minutes.toNat := by rw [mapOpt_length hv, List.length_range]
  have hne : values ≠ [] := by
    intro hnil
    rw [hnil] at hlen
    simp at hlen
    omega
  obtain ⟨out, hout⟩ : ∃ out,
      generate_resource_usage app_name metric_name unit minutes high_chance now rng
        = some out := by
    unfold generate_resource_usage
    rw [hv, Option.some_bind, if_neg hne]
    exact ⟨_, rfl⟩
  obtain ⟨-, -, -, -, -, -, -, hlen2⟩ := generate_resource_usage_inv hout
  exact ⟨out, hout, by rw [hlen2]; omega⟩

/-- Claim C3: for every call to `get_cpu_usage` or `get_memory_usage` that
returns a record, the returned fields satisfy `min ≤ average ≤ max`, the
average being the mean of the generated per-minute values and min and max
their extrema (all rounded to two decimals on return). -/
theorem resource_usage_avg_between (app_name resource_group : String)
    (minutes now : ℤ) (rng : ℕ → ℚ) (out : ResourceUsageOutput) :
    (get_cpu_usage app_name resource_group minutes now rng = some out →
      out.min ≤ out.average ∧ out.average ≤ out.max)
    ∧ (get_memory_usage app_name resource_group minutes now rng = some out →
      out.min ≤ out.average ∧ out.average ≤ out.max) :=
  ⟨fun h => gen_min_le_average_le_max h, fun h => gen_min_le_average_le_max h⟩

/-- Claim C4: for every call to `get_cpu_usage` or `get_memory_usage` that
returns a record, `has_issues` is true iff the metric-specific threshold is
exceeded by the returned `max` field: CPU `max > 90`, Memory `max > 1500`. -/
theorem resource_usage_has_issues_iff (app_name resource_group : String)
    (minutes now : ℤ) (rng : ℕ → ℚ) (out : ResourceUsageOutput) :
    (get_cpu_usage app_name resource_group minutes now rng = some out →
      (out.has_issues = true ↔ out.max > 90))
    ∧ (get_memory_usage app_name resource_group minutes now rng = some out →
      (out.has_issues = true ↔ out.max > 1500)) :=
  ⟨fun h => gen_cpu_has_issues h, fun h => gen_memory_has_issues h⟩

/-- Claim C9: for every call to `get_cpu_usage` or `get_memory_usage` with
`minutes ≥ 6`, the computation is total (no division by zero: the
spike-severity divisor `minutes // 6` is nonzero and the value list is
nonempty) and the returned `time_series` has exactly `minutes` points. -/
theorem resource_usage_total_and_length (app_name resource_group : String)
    (minutes now : ℤ) (rng : ℕ → ℚ) (h : 6 ≤ minutes) :
    (∃ out, get_cpu_usage app_name resource_group minutes now rng = some out
        ∧ (out.time_series.length : ℤ) = minutes)
    ∧ (∃ out, get_memory_usage app_name resource_group minutes now rng = some out
        ∧ (out.time_series.length : ℤ) = minutes) :=
  ⟨gen_total h, gen_total h⟩

/-- Witness for claim C9 at a concrete input: six minutes, zero seeds. -/
theorem resource_usage_total_and_length_witness :
    (∃ out, get_cpu_usage "myapp" "rg" 6 0 (fun _ => 0) = some out
        ∧ (out.time_series.length : ℤ) = 6)
    ∧ (∃ out, get_memory_usage "myapp" "rg" 6 0 (fun _ => 0) = some out
        ∧ (out.time_series.length : ℤ) = 6) :=
  resource_usage_total_and_length "myapp" "rg" 6 0 (fun _ => 0) (by norm_num)

/-! ## `get_logs` (src/sre_agent_tools.py, lines 337-431)

Seeds: `rng 0` is the serious-errors coin (`random.random() < 0.4`), `ri 0`
the `total_logs` draw, `ri 1` the `error_count` draw, `ri 2` the
`warning_count` draw, `ri 3` the sample-size draw, `rng 1` the
image-pull-substitution coin, and `ri (4 + i)` the `i`-th count-distribution
draw.  `samp k` is the outcome of `random.sample(error_types, k)`; the C2
theorem assumes exactly the sample contract (a duplicate-free list of length
`k`).  The Python `error_categories` dict is an association list built with
dict semantics (`dictInsert` updates an existing key in place, else appends;
insertion order is preserved, as for Python dicts). -/

/-- The `LogSummary` pydantic model, the dict as an ordered association
list. -/
structure LogSummary where
  total_logs : ℕ
  error_count : ℕ
  warning_count : ℕ
  error_categories : List (String × ℕ)
  sample_errors : List String
  has_issues : Bool
deriving DecidableEq

/-- The `error_types` list of `get_logs`. -/
def error_types : List String :=
  ["Connection timeout", "Database connection failed", "Out of memory",
    "Permission denied", "Image pull failure", "API request failed",
    "Certificate validation error", "Service unavailable"]

/-- The sample-error message appended for a given category by the `if`/`elif`
chain of `get_logs` (an unknown category appends nothing). -/
def logMessageFor (error_type : String) : Option String :=
  if error_type = "Connection timeout" then
    some "ERROR: Connection timeout after 30s when connecting to external API endpoint"
  else if error_type = "Database connection failed" then
    some "ERROR: Failed to connect to database: Connection refused (0x5)"
  else if error_type = "Out of memory" then
    some "ERROR: Container terminated due to OOM: Limit: 2048Mi"
  else if error_type = "Permission denied" then
    some "ERROR: Permission denied when accessing blob storage account"
  else if error_type = "Image pull failure" then
    some "ERROR: Failed to pull image 'myregistry.azurecr.io/myapp:latest': unauthorized: authentication required"
  else if error_type = "API request failed" then
    some "ERROR: API request to dependency service failed with status code 503"
  else if error_type = "Certificate validation error" then
    some "ERROR: Certificate validation failed: certificate has expired"
  else if error_type = "Service unavailable" then
    some "ERROR: Dependency service unavailable: connection refused"
  else none

/-- Assignment `d[k] = v` with Python dict semantics: update the key in place
if present, else append. -/
def dictInsert (d : List (String × ℕ)) (k : String) (v : ℕ) : List (String × ℕ) :=
  if d.any (fun p => p.1 == k) then d.map (fun p => if p.1 = k then (k, v) else p)
  else d ++ [(k, v)]

/-- The dict built by assigning the pairs in order into an empty dict. -/
def dictOfPairs (pairs : List (String × ℕ)) : List (String × ℕ) :=
  pairs.foldl (fun d p => dictInsert d p.1 p.2) []

/-- The count-distribution loop of `get_logs`: every category except the last
gets `randint(max(1, remaining // 10), remaining // 2)` errors (a `ValueError`
— modelled as `none` — if that range is empty) and the last category gets all
remaining errors. -/
def distributeErrors (ri : ℕ → ℕ) : ℕ → ℕ → List String → Option (List (String × ℕ))
  | _, _, [] => some []
  | idx, remaining, et :: rest =>
    if rest.isEmpty then some [(et, remaining)]
    else
      let lo := max 1 (remaining / 10)
      let hi := remaining / 2
      if lo ≤ hi then
        let count := pyRandint lo hi (ri idx)
        (distributeErrors ri (idx + 1) (remaining - count) rest).map
          (fun pairs => (et, count) :: pairs)
      else none

/-- Whether this call draws serious errors: `random.random() < 0.4`. -/
def logsSerious (rng : ℕ → ℚ) : Bool := decide (pyRandom (rng 0) < 2/5)

/-- The `error_count` draw of `get_logs`. -/
def logsErrorCount (rng : ℕ → ℚ) (ri : ℕ → ℕ) : ℕ :=
  if logsSerious rng then pyRandint 50 200 (ri 1) else pyRandint 5 30 (ri 1)

/-- The `warning_count` draw of `get_logs`. -/
def logsWarningCount (rng : ℕ → ℚ) (ri : ℕ → ℕ) : ℕ :=
  if logsSerious rng then pyRandint 100 300 (ri 2) else pyRandint 20 80 (ri 2)

/-- The serious-branch category selection: sample 2-3 error types, then with
probability 0.7 force `"Image pull failure"` into slot 0 when absent. -/
def logsSelectedSerious (rng : ℕ → ℚ) (ri : ℕ → ℕ) (samp : ℕ → List String) : List String :=
  let sel := samp (pyRandint 2 3 (ri 3))
  if "Image pull failure" ∉ sel ∧ pyRandom (rng 1) < 7/10 then
    sel.set 0 "Image pull failure"
  else sel

/-- The `selected_errors` list of `get_logs`. -/
def logsSelected (rng : ℕ → ℚ) (ri : ℕ → ℕ) (samp : ℕ → List String) : List String :=
  if logsSerious rng then logsSelectedSerious rng ri samp
  else samp (pyRandint 1 2 (ri 3))

/-- `get_logs(container_app_name, resource_group, minutes, error_only)`.  The
first three arguments and `error_only` are unused by the Python body, exactly
as here. -/
def get_logs (container_app_name resource_group : String) (minutes : ℤ) (error_only : Bool)
    (rng : ℕ → ℚ) (ri : ℕ → ℕ) (samp : ℕ → List String) : Option LogSummary :=
  (distributeErrors ri 4 (logsErrorCount rng ri) (logsSelected rng ri samp)).map fun pairs =>
    let error_categories := dictOfPairs pairs
    { total_logs := pyRandint 500 2000 (ri 0)
      error_count := logsErrorCount rng ri
      warning_count := logsWarningCount rng ri
      error_categories := error_categories
      sample_errors := error_categories.filterMap (fun p => logMessageFor p.1)
      has_issues := logsSerious rng }

lemma le_pyRandint (a b s : ℕ) : a ≤ pyRandint a b s := Nat.le_add_right a _

lemma pyRandint_le {a b : ℕ} (h : a ≤ b) (s : ℕ) : pyRandint a b s ≤ b := by
  unfold pyRandint
  have h1 : s % (b + 1 - a) < b + 1 - a := Nat.mod_lt s (by omega)
  omega

lemma nodup_set_head {l : List String} {v : String} (hnd : l.Nodup) (hv : v ∉ l) :
    (l.set 0 v).Nodup := by
  cases l with
  | nil => simp
  | cons x xs =>
    have hset : (x :: xs).set 0 v = v :: xs := rfl
    rw [hset, List.nodup_cons]
    rw [List.nodup_cons] at hnd
    exact ⟨fun h => hv (List.mem_cons_of_mem x h), hnd.2⟩

lemma distributeErrors_sum (ri : ℕ → ℕ) : ∀ (sel : List String) (idx rem : ℕ)
    (pairs : List (String × ℕ)), sel ≠ [] →
    distributeErrors ri idx rem sel = some pairs →
    (pairs.map Prod.snd).sum = rem := by
  intro sel
  induction sel with
  | nil => intro idx rem pairs h _; exact absurd rfl h
  | cons et rest ih =>
    intro idx rem pairs _ h
    simp only [distributeErrors] at h
    by_cases hr : rest.isEmpty
    · rw [if_pos hr] at h
      injection h with h
      subst h
      simp
    · rw [if_neg hr] at h
      split at h
      · rename_i hlo
        rcases Option.map_eq_some'.mp h with ⟨pairs', hrec, hpairs⟩
        subst hpairs
        have hrest_ne : rest ≠ [] := by
          intro h0
          rw [h0] at hr
          exact hr rfl
        have hsum' := ih (idx + 1) (rem - pyRandint (max 1 (rem / 10)) (rem / 2) (ri idx))
          pairs' hrest_ne hrec
        have hcle : pyRandint (max 1 (rem / 10)) (rem / 2) (ri idx) ≤ rem :=
          le_trans (pyRandint_le hlo _) (Nat.div_le_self rem 2)
        simp only [List.map_cons, List.sum_cons, hsum']
        omega
      · cases h

lemma distributeErrors_keys (ri : ℕ → ℕ) : ∀ (sel : List String) (idx rem : ℕ)
    (pairs : List (String × ℕ)),
    distributeErrors ri idx rem sel = some pairs →
    pairs.map Prod.fst = sel := by
  intro sel
  induction sel with
  | nil =>
    intro idx rem pairs h
    injection h with h
    subst h
    rfl
  | cons et rest ih =>
    intro idx rem pairs h
    simp only [distributeErrors] at h
    by_cases hr : rest.isEmpty
    · rw [if_pos hr] at h
      injection h with h
      subst h
      rw [List.isEmpty_iff.mp hr]
      rfl
    · rw [if_neg hr] at h
      split at h
      · rcases Option.map_eq_some'.mp h with ⟨pairs', hrec, hpairs⟩
        subst hpairs
        simp [ih _ _ _ hrec]
      · cases h

lemma distributeErrors_total (ri : ℕ → ℕ) : ∀ (sel : List String) (idx rem : ℕ),
    sel.length ≤ 3 → 4 ≤ rem →
    ∃ pairs, distributeErrors ri idx rem sel = some pairs := by
  intro sel
  match sel with
  | [] => exact fun idx rem _ _ => ⟨[], rfl⟩
  | [a] => exact fun idx rem _ _ => ⟨[(a, rem)], by simp [distributeErrors]⟩
  | [a, b] =>
    intro idx rem _ h4
    have hlo : max 1 (rem / 10) ≤ rem / 2 := by omega
    refine ⟨[(a, pyRandint (max 1 (rem / 10)) (rem / 2) (ri idx)),
      (b, rem - pyRandint (max 1 (rem / 10)) (rem / 2) (ri idx))], ?_⟩
    simp [distributeErrors, hlo]
  | [a, b, c] =>
    intro idx rem _ h4
    have hlo : max 1 (rem / 10) ≤ rem / 2 := by omega
    have hc0le : pyRandint (max 1 (rem / 10)) (rem / 2) (ri idx) ≤ rem / 2 :=
      pyRandint_le hlo _
    have hlo2 : max 1 ((rem - pyRandint (max 1 (rem / 10)) (rem / 2) (ri idx)) / 10)
        ≤ (rem - pyRandint (max 1 (rem / 10)) (rem / 2) (ri idx)) / 2 := by omega
    refine ⟨[(a, pyRandint (max 1 (rem / 10)) (rem / 2) (ri idx)),
      (b, pyRandint
        (max 1 ((rem - pyRandint (max 1 (rem / 10)) (rem / 2) (ri idx)) / 10))
        ((rem - pyRandint (max 1 (rem / 10)) (rem / 2) (ri idx)) / 2) (ri (idx + 1))),
      (c, rem - pyRandint (max 1 (rem / 10)) (rem / 2) (ri idx) - pyRandint
        (max 1 ((rem - pyRandint (max 1 (rem / 10)) (rem / 2) (ri idx)) / 10))
        ((rem - pyRandint (max 1 (rem / 10)) (rem / 2) (ri idx)) / 2) (ri (idx + 1)))], ?_⟩
    simp [distributeErrors, hlo, hlo2]
  | _ :: _ :: _ :: _ :: _ =>
    intro idx rem h3 _
    simp at h3

lemma foldl_dictInsert_nodup : ∀ (pairs acc : List (String × ℕ)),
    ((acc ++ pairs).map Prod.fst).Nodup →
    pairs.foldl (fun d p => dictInsert d p.1 p.2) acc = acc ++ pairs := by
  intro pairs
  induction pairs with
  | nil => intro acc _; simp
  | cons p ps ih =>
    intro acc hnd
    have hnd' : (acc.map Prod.fst ++ p.1 :: ps.map Prod.fst).Nodup := by
      simpa using hnd
    have hnotin : p.1 ∉ acc.map Prod.fst := fun hmem =>
      (List.disjoint_left.mp (List.nodup_append.mp hnd').2.2 hmem)
        (List.mem_cons_self _ _)
    have hany : (acc.any (fun q => q.1 == p.1)) = false := by
      by_contra hne
      rw [Bool.not_eq_false, List.any_eq_true] at hne
      obtain ⟨q, hq, hbeq⟩ := hne
      exact hnotin (List.mem_map.mpr ⟨q, hq, by simpa using hbeq⟩)
    have hins : dictInsert acc p.1 p.2 = acc ++ [p] := by
      unfold dictInsert
      rw [hany]
      simp
    rw [List.foldl_cons, hins, ih (acc ++ [p]) (by simpa using hnd)]
    simp

lemma dictOfPairs_eq_self {pairs : List (String × ℕ)}
    (h : (pairs.map Prod.fst).Nodup) : dictOfPairs pairs = pairs := by
  have := foldl_dictInsert_nodup pairs [] (by simpa using h)
  simpa [dictOfPairs] using this

lemma logsSelectedSerious_length {rng : ℕ → ℚ} {ri : ℕ → ℕ} {samp : ℕ → List String}
    (hlen2 : (samp (pyRandint 2 3 (ri 3))).length = pyRandint 2 3 (ri 3)) :
    (logsSelectedSerious rng ri samp).length = pyRandint 2 3 (ri 3) := by
  simp only [logsSelectedSerious]
  split
  · rw [List.length_set]; exact hlen2
  · exact hlen2

lemma logsSelectedSerious_nodup {rng : ℕ → ℚ} {ri : ℕ → ℕ} {samp : ℕ → List String}
    (hnd2 : (samp (pyRandint 2 3 (ri 3))).Nodup) :
    (logsSelectedSerious rng ri samp).Nodup := by
  simp only [logsSelectedSerious]
  split
  · next hc => exact nodup_set_head hnd2 hc.1
  · exact hnd2

/-- Claim C2: for every call to `get_logs` (any arguments, any outcome of the
random draws, any outcome of `random.sample` — a duplicate-free list of the
drawn length), the call returns a summary and the sum of the values of its
`error_categories` dictionary equals its `error_count` field. -/
theorem get_logs_error_sum (container_app_name resource_group : String) (minutes : ℤ)
    (error_only : Bool) (rng : ℕ → ℚ) (ri : ℕ → ℕ) (samp : ℕ → List String)
    (hnd2 : (samp (pyRandint 2 3 (ri 3))).Nodup)
    (hlen2 : (samp (pyRandint 2 3 (ri 3))).length = pyRandint 2 3 (ri 3))
    (hnd1 : (samp (pyRandint 1 2 (ri 3))).Nodup)
    (hlen1 : (samp (pyRandint 1 2 (ri 3))).length = pyRandint 1 2 (ri 3)) :
    ∃ out, get_logs container_app_name resource_group minutes error_only rng ri samp
        = some out
      ∧ (out.error_categories.map Prod.snd).sum = out.error_count := by
  have hsel_nd : (logsSelected rng ri samp).Nodup := by
    unfold logsSelected
    split
    · exact logsSelectedSerious_nodup hnd2
    · exact hnd1
  have hsel_len_le : (logsSelected rng ri samp).length ≤ 3 := by
    unfold logsSelected
    split
    · rw [logsSelectedSerious_length hlen2]; exact pyRandint_le (by norm_num) _
    · rw [hlen1]; exact le_trans (pyRandint_le (by norm_num) _) (by norm_num)
  have hsel_pos : 1 ≤ (logsSelected rng ri samp).length := by
    unfold logsSelected
    split
    · rw [logsSelectedSerious_length hlen2]
      exact le_trans (by norm_num) (le_pyRandint 2 3 (ri 3))
    · rw [hlen1]; exact le_pyRandint 1 2 (ri 3)
  have hsel_ne : logsSelected rng ri samp ≠ [] := by
    intro h0
    rw [h0] at hsel_pos
    simp at hsel_pos
  have hec4 : 4 ≤ logsErrorCount rng ri := by
    unfold logsErrorCount
    split
    · exact le_trans (by norm_num) (le_pyRandint 50 200 (ri 1))
    · exact le_trans (by norm_num) (le_pyRandint 5 30 (ri 1))
  obtain ⟨pairs, hp⟩ :=
    distributeErrors_total ri (logsSelected rng ri samp) 4 (logsErrorCount rng ri)
      hsel_len_le hec4
  have hkeys := distributeErrors_keys ri _ _ _ _ hp
  have hsum := distributeErrors_sum ri _ _ _ _ hsel_ne hp
  refine ⟨{ total_logs := pyRandint 500 2000 (ri 0)
            error_count := logsErrorCount rng ri
            warning_count := logsWarningCount rng ri
            error_categories := dictOfPairs pairs
            sample_errors := (dictOfPairs pairs).filterMap (fun p => logMessageFor p.1)
            has_issues := logsSerious rng }, ?_, ?_⟩
  · unfold get_logs
    rw [hp]
    rfl
  · show ((dictOfPairs pairs).map Prod.snd).sum = logsErrorCount rng ri
    rw [dictOfPairs_eq_self (by rw [hkeys]; exact hsel_nd)]
    exact hsum

/-- Witness for claim C2 at a concrete input: zero seeds (a serious-errors
run drawing two categories) and the sample outcome taking the first `k`
error types. -/
theorem get_logs_error_sum_witness :
    ∃ out, get_logs "myapp" "rg" 20 true (fun _ => 0) (fun _ => 0)
        (fun n => error_types.take n) = some out
      ∧ (out.error_categories.map Prod.snd).sum = out.error_count :=
  get_logs_error_sum "myapp" "rg" 20 true (fun _ => 0) (fun _ => 0)
    (fun n => error_types.take n) (by decide) (by decide) (by decide) (by decide)
